import Mathlib

/-!
Shallow embedding of the `plp_edmodule` business rules
(`plp_edmodule/models.py` and `plp_edmodule/utils.py`):
module price aggregation, promo-code validation and price calculation,
external-API error classification, progress merging, graduation updates
and promo-code generation.

Database rows become Lean structures, querysets become lists, machine
integers become `Nat`/`Int`, Python `Decimal`/`float` arithmetic becomes `ℚ`,
and code paths that raise in Python return `Option`/`Except` values.
-/

/-- The edx course modes from `SessionEnrollmentType.mode` /
`EducationalModuleEnrollmentType.EDX_MODES`. -/
inductive Mode
  | audit
  | honor
  | verified
deriving DecidableEq, Repr

/-- One `EnrollmentReason` row joined with its participant and the
participant's session, keeping the fields `get_price_list` reads:
`participant__user`, `session_enrollment_type__mode`,
`participant.session.course_id`, `participant.is_graduate`,
`participant.session.datetime_ends`. -/
structure Reason where
  user_id : Nat
  mode : Mode
  course_id : Nat
  is_graduate : Bool
  datetime_ends : Option Int
deriving DecidableEq, Repr

/-- A `CourseSession` row (id, course FK, enrollment window). -/
structure CourseSession where
  id : Nat
  course_id : Nat
  datetime_start_enroll : Option Int
  datetime_end_enroll : Option Int
deriving DecidableEq, Repr

/-- A `SessionEnrollmentType` row (session FK, mode, price). -/
structure SessionEnrollmentType where
  session_id : Nat
  mode : Mode
  price : Nat
deriving DecidableEq, Repr

/-- An `EducationalModule` row with its sorted m2m course set
and the fields used by the pricing code. -/
structure EducationalModule where
  id : Nat
  courses : List Nat
  discount : Int
deriving DecidableEq, Repr

/-- The relational state read by the pricing and promo-code code. -/
structure DB where
  reasons : List Reason
  course_sessions : List CourseSession
  session_types : List SessionEnrollmentType
  modules : List EducationalModule
deriving Repr

/-- The per-reason test inside `get_price_list`: the participant is a
graduate, or the session has a `datetime_ends` strictly after `now`. -/
def matchesPaid (now : Int) (r : Reason) : Bool :=
  r.is_graduate ||
    (match r.datetime_ends with
     | some t => decide (t > now)
     | none => false)

/-- One step of the `defaultdict(list)` grouping: append `r` to the group
keyed `k`, creating the group at the end when the key is new. -/
def insertGroup (acc : List (Nat × List Reason)) (k : Nat) (r : Reason) :
    List (Nat × List Reason) :=
  match acc with
  | [] => [(k, [r])]
  | (k2, g) :: rest =>
    if k2 = k then (k2, g ++ [r]) :: rest
    else (k2, g) :: insertGroup rest k r

/-- The `payment_for_course` defaultdict of `get_price_list`,
keyed by `r.participant.session.course_id`. -/
def paymentForCourse (rs : List Reason) : List (Nat × List Reason) :=
  rs.foldl (fun acc r => insertGroup acc r.course_id r) []

/-- The `course_paid` list of `get_price_list`: for an authenticated user,
the course ids whose verified-mode payments contain a reason passing
`matchesPaid` (the `should_pay` loop). -/
def coursePaid (reasons : List Reason) (now : Int) (for_user : Option Nat) :
    List Nat :=
  match for_user with
  | none => []
  | some uid =>
    let rs := reasons.filter (fun r =>
      r.user_id == uid && r.mode == Mode.verified)
    ((paymentForCourse rs).filter (fun kg =>
      kg.2.any (matchesPaid now))).map Prod.fst

/-- The `sessions` queryset of `get_price_list`:
`course__in=courses.exclude(id__in=course_paid)`,
`datetime_end_enroll__isnull=False`, `datetime_start_enroll__lt=now`,
and a final `.exclude(id__in=course_paid)` on the session ids themselves. -/
def sessionFilter (db : DB) (m : EducationalModule) (paid : List Nat)
    (now : Int) : List CourseSession :=
  db.course_sessions.filter (fun s =>
    ((m.courses.filter (fun c => !(paid.contains c))).contains s.course_id) &&
    s.datetime_end_enroll.isSome &&
    (match s.datetime_start_enroll with
     | some t => decide (t < now)
     | none => false) &&
    !(paid.contains s.id))

/-- `session_for_course[c]`: head of the course's sessions after the
descending `order_by('-datetime_end_enroll')`, i.e. a session with maximal
`datetime_end_enroll` (first listed wins ties). -/
def session_for_course (ss : List CourseSession) (c : Nat) :
    Option CourseSession :=
  (ss.filter (fun s => s.course_id == c)).foldl
    (fun best s =>
      match best with
      | none => some s
      | some b =>
        if s.datetime_end_enroll.getD 0 > b.datetime_end_enroll.getD 0 then
          some s
        else some b)
    none

/-- The `types` dict lookup of `get_price_list`: price of the (last listed)
verified-mode enrollment type of the given session, default 0. -/
def verifiedPrice (types : List SessionEnrollmentType) (sid : Nat) : Nat :=
  match (types.filter (fun t =>
      t.session_id == sid && t.mode == Mode.verified)).getLast? with
  | some t => t.price
  | none => 0

/-- The dictionary returned by `EducationalModule.get_price_list`. -/
structure PriceList where
  courses : List (Nat × Nat)
  price : Nat
  whole_price : ℚ
  discount : Int
deriving DecidableEq, Repr

/-- `EducationalModule.get_price_list(for_user)` from
`plp_edmodule/models.py`: per-course verified prices of the chosen
sessions, their sum, and the module discount applied to the sum. -/
def EducationalModule.get_price_list (m : EducationalModule) (db : DB)
    (now : Int) (for_user : Option Nat) : PriceList :=
  let paid := coursePaid db.reasons now for_user
  let ss := sessionFilter db m paid now
  let priced := m.courses.map (fun c =>
    match session_for_course ss c with
    | some s => (c, verifiedPrice db.session_types s.id)
    | none => (c, 0))
  let price := (priced.map Prod.snd).sum
  { courses := priced,
    price := price,
    whole_price := (price : ℚ) * (1 - (m.discount : ℚ) / 100),
    discount := m.discount }

/-- The two promo product types from `PromoCode.PRODUCTS`. -/
inductive ProductType
  | course
  | edmodule
deriving DecidableEq, Repr

/-- The distinct user-facing messages produced by `PromoCode.validate`. -/
inductive PromoMessage
  | notBelongs
  | alreadyUsed
  | expired
  | valid
deriving DecidableEq, Repr

/-- A `PromoCode` row: product reference, expiry date, usage counters and
the two pricing fields (both nullable decimals). -/
structure PromoCode where
  product_type : ProductType
  course_id : Option Nat
  edmodule_id : Option Nat
  active_till : Int
  max_usage : Nat
  used : Nat
  use_with_others : Bool
  discount_percent : Option ℚ
  discount_price : Option ℚ
deriving DecidableEq, Repr

/-- The status/message dictionary returned by `PromoCode.validate`. -/
structure ValidateResult where
  status : Nat
  message : PromoMessage
deriving DecidableEq, Repr

/-- The usage and expiry checks of `PromoCode.validate`, run after the
product-ownership checks. -/
def validateChecks (p : PromoCode) (today : Int) : ValidateResult :=
  if p.used ≥ p.max_usage then { status := 1, message := PromoMessage.alreadyUsed }
  else if today > p.active_till then { status := 1, message := PromoMessage.expired }
  else { status := 0, message := PromoMessage.valid }

/-- `PromoCode.validate(product_id, product_type)`. `none` models the
`AttributeError` the source hits when the ownership check dereferences a
null `edmodule`/`course` foreign key. Note the source flags a mismatch only
when both the product type and the product id differ. -/
def PromoCode.validate (p : PromoCode) (today : Int) (product_id : Nat)
    (product_type : ProductType) : Option ValidateResult :=
  if p.product_type = ProductType.edmodule ∧ p.product_type ≠ product_type then
    match p.edmodule_id with
    | none => none
    | some eid =>
      if eid ≠ product_id then some { status := 1, message := PromoMessage.notBelongs }
      else some (validateChecks p today)
  else if p.product_type = ProductType.course ∧ p.product_type ≠ product_type then
    match p.course_id with
    | none => none
    | some cid =>
      if cid ≠ product_id then some { status := 1, message := PromoMessage.notBelongs }
      else some (validateChecks p today)
  else some (validateChecks p today)

/-- Python truthiness of a nullable `Decimal` field:
`None` and `0` are falsy. -/
def decimalTruthy : Option ℚ → Bool
  | none => false
  | some q => q != 0

/-- Banker's rounding to an integer (`decimal.ROUND_HALF_EVEN`, the default
rounding used by `Decimal.quantize`). -/
def roundHalfEven (x : ℚ) : ℤ :=
  let f := ⌊x⌋
  let frac := x - f
  if frac < 1 / 2 then f
  else if 1 / 2 < frac then f + 1
  else if f % 2 = 0 then f else f + 1

/-- `Decimal.quantize(Decimal('.00'))`: round to two decimal places,
ties to even. -/
def quantize2 (x : ℚ) : ℚ :=
  (roundHalfEven (100 * x) : ℚ) / 100

/-- The status/price dictionary returned by `PromoCode.calculate`
(`new_price = none` for the error results carrying only a message). -/
structure CalcResult where
  status : Nat
  new_price : Option ℚ
deriving DecidableEq, Repr

/-- `PromoCode.calculate(product_id, only_first_course, session_id)`.

`first_course_price` abstracts `edmodule.get_first_session_to_buy(None)`
and `session_verified_price` abstracts
`session.get_verified_mode_enrollment_type()`, both of which resolve
through `plp` internals outside this repository; `none` there, and a null
`discount_percent` where the source would add or divide it, model the
exceptions the source would raise (`calculate` then returns no value). -/
def PromoCode.calculate (p : PromoCode) (db : DB)
    (first_course_price : Option ℚ) (session_verified_price : Nat → Option ℚ)
    (product_id : Option Nat) (only_first_course : Option Bool)
    (session_id : Option Nat) (now : Int) : Option CalcResult :=
  if decimalTruthy p.discount_price then
    some { status := 0, new_price := p.discount_price }
  else if p.product_type = ProductType.edmodule then
    let foundModule : Option EducationalModule :=
      match product_id with
      | some pid => db.modules.find? (fun m => m.id == pid)
      | none => none
    match foundModule with
    | none => some { status := 1, new_price := none }
    | some edmodule =>
      let pl := edmodule.get_price_list db now none
      let adjusted : Option (ℚ × ℚ) :=
        if only_first_course = some true then
          match first_course_price with
          | none => none
          | some fcp => some (fcp, fcp * (1 - (pl.discount : ℚ) / 100))
        else
          some ((pl.price : ℚ), pl.whole_price)
      match adjusted with
      | none => none
      | some (priceVal, wholeVal) =>
        if p.use_with_others then
          match p.discount_percent with
          | none => none
          | some dp =>
            some { status := 0,
                   new_price := some (quantize2 (priceVal *
                     (1 - (dp + (pl.discount : ℚ)) / 100))) }
        else
          match p.discount_percent with
          | none =>
            -- Python 2 comparison: any Decimal is greater than None
            some { status := 0, new_price := some (quantize2 wholeVal) }
          | some dp =>
            if (pl.discount : ℚ) > dp then
              some { status := 0, new_price := some (quantize2 wholeVal) }
            else
              some { status := 0,
                     new_price := some (quantize2 (priceVal * (1 - dp / 100))) }
  else
    let foundSession : Option CourseSession :=
      match session_id with
      | some sid => db.course_sessions.find? (fun s => s.id == sid)
      | none => none
    match foundSession with
    | none => some { status := 1, new_price := none }
    | some session =>
      match session_verified_price session.id with
      | none => none
      | some vp =>
        match p.discount_percent with
        | none => none
        | some dp =>
          some { status := 0,
                 new_price := some (quantize2 (vp * (1 - dp / 100))) }

/-- Outcome of the underlying `self.session.request` HTTP call in
`EDXEnrollmentExtension.request`: a connection timeout, another `IOError`,
or a response with a status code. -/
inductive HttpOutcome
  | timeout
  | ioError
  | response (status : Nat)
deriving DecidableEq, Repr

/-- The `EDXEnrollmentError` subclasses raised by
`EDXEnrollmentExtension.request` (`EDXTimeoutError` is declared in
`plp_edmodule/utils.py`; the other two come from `plp`). -/
inductive EDXError
  | timeoutError
  | notAvailable
  | communicationError
deriving DecidableEq, Repr

/-- `EDXEnrollmentExtension.request`: classify the HTTP outcome, returning
the response status only on HTTP 200. -/
def edxRequest (o : HttpOutcome) : Except EDXError Nat :=
  match o with
  | HttpOutcome.timeout => Except.error EDXError.timeoutError
  | HttpOutcome.ioError => Except.error EDXError.notAvailable
  | HttpOutcome.response st =>
    if 500 ≤ st then Except.error EDXError.notAvailable
    else if st ≠ 200 then Except.error EDXError.communicationError
    else Except.ok st

/-- One value of the per-course progress JSON blob: an abstract payload and
the `'updated_at'` key written by the sync code. -/
structure ProgressEntry where
  payload : Nat
  updated_at : Option Int
deriving DecidableEq, Repr

/-- A JSON progress dict, keyed by course id. -/
abbrev ProgressData := List (Nat × ProgressEntry)

/-- The `for k, v in data.items(): v['updated_at'] = now` loop of
`update_module_enrollment_progress`. -/
def stampProgress (now : Int) (d : ProgressData) : ProgressData :=
  d.map (fun kv => (kv.1, { kv.2 with updated_at := some now }))

/-- Python `dict.update`: existing keys keep their position but take the
new value; new keys are appended. -/
def dictUpdate (old upd : ProgressData) : ProgressData :=
  (old.map (fun kv =>
    match upd.find? (fun kv2 => kv2.1 == kv.1) with
    | some kv2 => (kv.1, kv2.2)
    | none => kv)) ++
  upd.filter (fun kv2 => !(old.any (fun kv => kv.1 == kv2.1)))

/-- `update_module_enrollment_progress(enrollment)` acting on the stored
`EducationalModuleProgress` of one enrollment. The stored state is
`none` when no progress row exists, and `some p` for a row whose nullable
`progress` field is `p` (`progress.progress or {}` reads null as `{}`).
The edx call is abstracted by its result: data on success, an
`EDXEnrollmentError` on failure, which the source catches and ignores. -/
def update_module_enrollment_progress (stored : Option (Option ProgressData))
    (edxResult : Except EDXError ProgressData) (now : Int) :
    Option (Option ProgressData) :=
  match edxResult with
  | Except.error _ => stored
  | Except.ok data =>
    let data' := stampProgress now data
    match stored with
    | some p => some (some (dictUpdate (p.getD []) data'))
    | none => some (some data')

/-- An `EducationalModuleEnrollment` row with the fields the embedded
operations read or write. -/
structure EducationalModuleEnrollment where
  id : Nat
  user : Nat
  module : Nat
  is_graduated : Bool
  is_active : Bool
deriving DecidableEq, Repr

/-- A session as seen by `update_modules_graduation`: its course id and the
`certificate_data` attribute, `some b` when the attribute is present with
a `'passed'` value of truthiness `b`, `none` when absent. -/
structure GradSession where
  course_id : Nat
  certificate_data : Option Bool
deriving DecidableEq, Repr

/-- The `passed_courses` set of `update_modules_graduation` (membership is
all the source uses of it). -/
def passedCoursesOf (sessions : List GradSession) : List Nat :=
  (sessions.filter (fun s => s.certificate_data == some true)).map
    (fun s => s.course_id)

/-- `update_modules_graduation(user, sessions)` from
`plp_edmodule/utils.py`, acting on the enrollment table.
`moduleCourses` abstracts the m2m lookup
`enr.module.courses.values_list('id', flat=True)`. -/
def update_modules_graduation (user : Nat) (sessions : List GradSession)
    (enrollments : List EducationalModuleEnrollment)
    (moduleCourses : Nat → List Nat) : List EducationalModuleEnrollment :=
  let notPassedModules :=
    (enrollments.filter (fun e => e.user == user && !e.is_graduated)).map
      (fun e => (e.id, moduleCourses e.module))
  let passedCourses := passedCoursesOf sessions
  let toUpdate :=
    (notPassedModules.filter (fun p =>
      p.2.all (fun c => passedCourses.contains c))).map Prod.fst
  enrollments.map (fun e =>
    if e.user == user && toUpdate.contains e.id then
      { e with is_graduated := true }
    else e)

/-- The `unique_together ('user', 'module')` invariant of
`EducationalModuleEnrollment`: no two rows share both user and module. -/
def enrollmentUnique (t : List EducationalModuleEnrollment) : Prop :=
  t.Pairwise (fun a b => ¬(a.user = b.user ∧ a.module = b.module))

instance (t : List EducationalModuleEnrollment) :
    Decidable (enrollmentUnique t) := by
  unfold enrollmentUnique; infer_instance

/-- Modelled from the spec: creation of an `EducationalModuleEnrollment`
row. The views that create enrollments are outside this repository's
sources; only the `unique_together ('user', 'module')` declaration is in
`plp_edmodule/models.py`, and the database rejects an insert that would
duplicate an existing (user, module) pair. -/
def createEnrollment (t : List EducationalModuleEnrollment)
    (e : EducationalModuleEnrollment) :
    Except Unit (List EducationalModuleEnrollment) :=
  if t.any (fun x => x.user == e.user && x.module == e.module) then
    Except.error ()
  else
    Except.ok (t ++ [e])

/-- `string.ascii_uppercase + string.digits`, the alphabet
`generate_promocode` draws from. -/
def promoAlphabet : List Char :=
  ['A', 'B', 'C', 'D', 'E', 'F', 'G', 'H', 'I', 'J', 'K', 'L', 'M',
   'N', 'O', 'P', 'Q', 'R', 'S', 'T', 'U', 'V', 'W', 'X', 'Y', 'Z',
   '0', '1', '2', '3', '4', '5', '6', '7', '8', '9']

/-- `DEFAULT_PROMOCODE_LENGTH` from `plp_edmodule/utils.py`. -/
def DEFAULT_PROMOCODE_LENGTH : Nat := 6

/-- The candidate code built at recursion depth `i` of
`generate_promocode`: six `random.choice` draws from `promoAlphabet`,
the randomness abstracted by the index stream `rnd`. -/
def promocodeOf (rnd : Nat → Nat) (i : Nat) : List Char :=
  (List.range DEFAULT_PROMOCODE_LENGTH).map (fun j =>
    promoAlphabet.get
      ⟨rnd (DEFAULT_PROMOCODE_LENGTH * i + j) % promoAlphabet.length,
       Nat.mod_lt _ (by decide)⟩)

/-- `generate_promocode(iter)` from `plp_edmodule/utils.py`: draw a
candidate, raise once `iter` exceeds 100, recurse while the candidate
collides with an existing `PromoCode.code` (`existing` abstracts the
`PromoCode.objects.filter(code=promocode)` test). -/
def generate_promocode (rnd : Nat → Nat) (existing : List Char → Bool)
    (iter : Nat := 0) : Except Unit (List Char) :=
  let promocode := promocodeOf rnd iter
  if _h : iter > 100 then Except.error ()
  else if existing promocode then generate_promocode rnd existing (iter + 1)
  else Except.ok promocode
termination_by 101 - iter
decreasing_by omega

/-- C4: `EDXEnrollmentExtension.request` classifies failures into three
distinct exception kinds — a connection timeout raises `EDXTimeoutError`,
an `IOError` or an HTTP status >= 500 raises `EDXNotAvailable`, any other
HTTP status different from 200 raises `EDXCommunicationError` — and it
returns the response without raising exactly when the HTTP status is 200. -/
theorem C4_edx_error_classification (st : Nat) :
    edxRequest HttpOutcome.timeout = Except.error EDXError.timeoutError ∧
    edxRequest HttpOutcome.ioError = Except.error EDXError.notAvailable ∧
    (500 ≤ st →
      edxRequest (HttpOutcome.response st) = Except.error EDXError.notAvailable) ∧
    (st < 500 → st ≠ 200 →
      edxRequest (HttpOutcome.response st) =
        Except.error EDXError.communicationError) ∧
    ((∃ r, edxRequest (HttpOutcome.response st) = Except.ok r) ↔ st = 200) ∧
    EDXError.timeoutError ≠ EDXError.notAvailable ∧
    EDXError.timeoutError ≠ EDXError.communicationError ∧
    EDXError.notAvailable ≠ EDXError.communicationError := by
  refine ⟨rfl, rfl, ?_, ?_, ?_, by decide, by decide, by decide⟩
  · intro h
    simp only [edxRequest]
    rw [if_pos h]
  · intro h1 h2
    simp only [edxRequest]
    rw [if_neg (by omega), if_pos h2]
  · constructor
    · rintro ⟨r, hr⟩
      simp only [edxRequest] at hr
      split_ifs at hr with h1 h2
      · omega
    · intro h
      subst h
      exact ⟨200, by simp [edxRequest]⟩

/-- Witness for C4 at concrete statuses 503, 404 and 200. -/
theorem C4_edx_error_classification_witness :
    edxRequest (HttpOutcome.response 503) = Except.error EDXError.notAvailable ∧
    edxRequest (HttpOutcome.response 404) =
      Except.error EDXError.communicationError ∧
    (∃ r, edxRequest (HttpOutcome.response 200) = Except.ok r) :=
  ⟨(C4_edx_error_classification 503).2.2.1 (by omega),
   (C4_edx_error_classification 404).2.2.2.1 (by omega) (by omega),
   ((C4_edx_error_classification 200).2.2.2.2.1).mpr rfl⟩

/-- Updating an absent progress dict just installs the new data. -/
theorem dictUpdate_nil (u : ProgressData) : dictUpdate [] u = u := by
  simp [dictUpdate]

/-- C5: on any `EDXEnrollmentError` the stored progress is unchanged and no
exception escapes; on success the per-course entries, each stamped with the
current time under `updated_at`, are merged into the stored record, which
is created when absent. -/
theorem C5_progress_sync_failure_handling (stored : Option (Option ProgressData))
    (e : EDXError) (data : ProgressData) (now : Int) :
    update_module_enrollment_progress stored (Except.error e) now = stored ∧
    update_module_enrollment_progress stored (Except.ok data) now =
      some (some (dictUpdate ((stored.getD none).getD [])
        (stampProgress now data))) ∧
    (∀ kv ∈ stampProgress now data, kv.2.updated_at = some now) := by
  refine ⟨rfl, ?_, ?_⟩
  · cases stored with
    | none => simp [update_module_enrollment_progress, dictUpdate_nil]
    | some p => rfl
  · intro kv hkv
    simp only [stampProgress, List.mem_map] at hkv
    obtain ⟨kv0, _, hkv0⟩ := hkv
    subst hkv0
    rfl

/-- C2: in the dictionary returned by `get_price_list`, `price` is the sum
of the per-course prices of the `courses` list, each course priced by the
verified-mode enrollment type of its selected session (0 when no session or
type exists), `whole_price` is `price * (1 - discount/100)` and `discount`
is the module's discount field. -/
theorem C2_module_price_aggregation (db : DB) (m : EducationalModule)
    (now : Int) (u : Option Nat) :
    (m.get_price_list db now u).price =
      ((m.get_price_list db now u).courses.map Prod.snd).sum ∧
    (m.get_price_list db now u).whole_price =
      ((m.get_price_list db now u).price : ℚ) *
        (1 - ((m.get_price_list db now u).discount : ℚ) / 100) ∧
    (m.get_price_list db now u).discount = m.discount ∧
    (m.get_price_list db now u).courses =
      m.courses.map (fun c =>
        match session_for_course
            (sessionFilter db m (coursePaid db.reasons now u) now) c with
        | some s => (c, verifiedPrice db.session_types s.id)
        | none => (c, 0)) :=
  ⟨rfl, rfl, rfl, rfl⟩


/-- Appending a reason to its group (one `defaultdict` step) changes
"some group at key `cid` has a member satisfying `P`" exactly by the new
reason. -/
theorem insertGroup_any (P : Reason → Bool) (cid k : Nat) (r : Reason)
    (acc : List (Nat × List Reason)) :
    (∃ kg ∈ insertGroup acc k r, kg.1 = cid ∧ kg.2.any P = true) ↔
      ((∃ kg ∈ acc, kg.1 = cid ∧ kg.2.any P = true) ∨
        (k = cid ∧ P r = true)) := by
  induction acc with
  | nil => simp [insertGroup]
  | cons hd tl ih =>
    obtain ⟨k2, g⟩ := hd
    by_cases hk : k2 = k
    · subst hk
      simp only [insertGroup, if_pos rfl]
      constructor
      · rintro ⟨kg, hkg, hcid, hany⟩
        rcases List.mem_cons.mp hkg with h | h
        · subst h
          rw [List.any_append, Bool.or_eq_true] at hany
          rcases hany with h1 | h1
          · exact Or.inl ⟨(k2, g), List.mem_cons_self _ _, hcid, h1⟩
          · have hp : P r = true := by simpa using h1
            exact Or.inr ⟨hcid, hp⟩
        · exact Or.inl ⟨kg, List.mem_cons_of_mem _ h, hcid, hany⟩
      · rintro (⟨kg, hkg, hcid, hany⟩ | ⟨hcid, hp⟩)
        · rcases List.mem_cons.mp hkg with h | h
          · subst h
            refine ⟨(k2, g ++ [r]), List.mem_cons_self _ _, hcid, ?_⟩
            rw [List.any_append, Bool.or_eq_true]
            exact Or.inl hany
          · exact ⟨kg, List.mem_cons_of_mem _ h, hcid, hany⟩
        · refine ⟨(k2, g ++ [r]), List.mem_cons_self _ _, hcid, ?_⟩
          rw [List.any_append, Bool.or_eq_true]
          refine Or.inr ?_
          simpa using hp
    · simp only [insertGroup, if_neg hk]
      constructor
      · rintro ⟨kg, hkg, hcid, hany⟩
        rcases List.mem_cons.mp hkg with h | h
        · subst h
          exact Or.inl ⟨(k2, g), List.mem_cons_self _ _, hcid, hany⟩
        · rcases ih.mp ⟨kg, h, hcid, hany⟩ with ⟨kg2, h2, hc2, ha2⟩ | hkr
          · exact Or.inl ⟨kg2, List.mem_cons_of_mem _ h2, hc2, ha2⟩
          · exact Or.inr hkr
      · rintro (⟨kg, hkg, hcid, hany⟩ | hkr)
        · rcases List.mem_cons.mp hkg with h | h
          · subst h
            exact ⟨(k2, g), List.mem_cons_self _ _, hcid, hany⟩
          · obtain ⟨kg2, h2, hc2, ha2⟩ := ih.mpr (Or.inl ⟨kg, h, hcid, hany⟩)
            exact ⟨kg2, List.mem_cons_of_mem _ h2, hc2, ha2⟩
        · obtain ⟨kg2, h2, hc2, ha2⟩ := ih.mpr (Or.inr hkr)
          exact ⟨kg2, List.mem_cons_of_mem _ h2, hc2, ha2⟩

/-- The grouped `payment_for_course` dict has a group at key `cid` with a
member satisfying `P` exactly when some listed reason with that course id
satisfies `P`. -/
theorem paymentForCourse_any (P : Reason → Bool) (cid : Nat)
    (rs : List Reason) :
    (∃ kg ∈ paymentForCourse rs, kg.1 = cid ∧ kg.2.any P = true) ↔
      (∃ r ∈ rs, r.course_id = cid ∧ P r = true) := by
  suffices h : ∀ acc : List (Nat × List Reason),
      (∃ kg ∈ rs.foldl (fun acc r => insertGroup acc r.course_id r) acc,
        kg.1 = cid ∧ kg.2.any P = true) ↔
      ((∃ kg ∈ acc, kg.1 = cid ∧ kg.2.any P = true) ∨
        (∃ r ∈ rs, r.course_id = cid ∧ P r = true)) by
    simpa [paymentForCourse] using h []
  induction rs with
  | nil => intro acc; simp
  | cons r rs ih =>
    intro acc
    simp only [List.foldl_cons]
    rw [ih (insertGroup acc r.course_id r), insertGroup_any]
    constructor
    · rintro ((h | h) | ⟨r2, hr2, hb1, hb2⟩)
      · exact Or.inl h
      · exact Or.inr ⟨r, List.mem_cons_self _ _, h.1, h.2⟩
      · exact Or.inr ⟨r2, List.mem_cons_of_mem _ hr2, hb1, hb2⟩
    · rintro (h | ⟨r2, hr2, hb1, hb2⟩)
      · exact Or.inl (Or.inl h)
      · rcases List.mem_cons.mp hr2 with h | h
        · subst h
          exact Or.inl (Or.inr ⟨hb1, hb2⟩)
        · exact Or.inr ⟨r2, h, hb1, hb2⟩

/-- Membership in `course_paid`: the user has a listed verified-mode reason
for that course passing the graduate-or-ongoing test. -/
theorem mem_coursePaid (reasons : List Reason) (now : Int) (uid cid : Nat) :
    cid ∈ coursePaid reasons now (some uid) ↔
      ∃ r ∈ reasons, r.user_id = uid ∧ r.mode = Mode.verified ∧
        r.course_id = cid ∧ matchesPaid now r = true := by
  simp only [coursePaid]
  rw [List.mem_map]
  constructor
  · rintro ⟨kg, hkg, hfst⟩
    rw [List.mem_filter] at hkg
    have hex : ∃ kg2 ∈ paymentForCourse (reasons.filter (fun r =>
        r.user_id == uid && r.mode == Mode.verified)),
        kg2.1 = cid ∧ kg2.2.any (matchesPaid now) = true :=
      ⟨kg, hkg.1, hfst, hkg.2⟩
    rw [paymentForCourse_any] at hex
    obtain ⟨r, hr, hc, hp⟩ := hex
    rw [List.mem_filter] at hr
    have hcond := hr.2
    simp only [Bool.and_eq_true, beq_iff_eq] at hcond
    exact ⟨r, hr.1, hcond.1, hcond.2, hc, hp⟩
  · rintro ⟨r, hr, hu, hm, hc, hp⟩
    have hex : ∃ r2 ∈ reasons.filter (fun r =>
        r.user_id == uid && r.mode == Mode.verified),
        r2.course_id = cid ∧ matchesPaid now r2 = true := by
      refine ⟨r, ?_, hc, hp⟩
      rw [List.mem_filter]
      simp only [Bool.and_eq_true, beq_iff_eq]
      exact ⟨hr, hu, hm⟩
    rw [← paymentForCourse_any] at hex
    obtain ⟨kg, hkg, hfst, hany⟩ := hex
    refine ⟨kg, ?_, hfst⟩
    rw [List.mem_filter]
    exact ⟨hkg, hany⟩

/-- `matchesPaid` unfolded to the spec's wording: graduate, or the
session's end is strictly in the future. -/
theorem matchesPaid_iff (now : Int) (r : Reason) :
    matchesPaid now r = true ↔
      (r.is_graduate = true ∨ ∃ t, r.datetime_ends = some t ∧ now < t) := by
  cases h : r.datetime_ends with
  | none => simp [matchesPaid, h]
  | some t =>
    simp only [matchesPaid, h, Bool.or_eq_true, decide_eq_true_eq]
    constructor
    · rintro (hg | hlt)
      · exact Or.inl hg
      · exact Or.inr ⟨t, rfl, hlt⟩
    · rintro (hg | ⟨t2, ht2, hlt⟩)
      · exact Or.inl hg
      · cases ht2
        exact Or.inr hlt

/-- No session of the filtered queryset belongs to a paid course. -/
theorem sessionFilter_course_not_paid (db : DB) (m : EducationalModule)
    (paid : List Nat) (now : Int) (c : Nat) (hc : c ∈ paid) :
    ∀ s ∈ sessionFilter db m paid now, s.course_id ≠ c := by
  intro s hs hceq
  simp only [sessionFilter, List.mem_filter] at hs
  have hcond := hs.2
  simp only [Bool.and_eq_true] at hcond
  have h1 := hcond.1.1.1
  rw [hceq] at h1
  have h2 : c ∈ m.courses.filter (fun c2 => !(paid.contains c2)) := by
    simpa using h1
  rw [List.mem_filter] at h2
  have h3 := h2.2
  simp only [Bool.not_eq_true'] at h3
  have h4 : paid.contains c = true := by simpa using hc
  rw [h3] at h4
  exact Bool.false_ne_true h4

/-- A course with no session in the filtered list gets no chosen session. -/
theorem session_for_course_eq_none (ss : List CourseSession) (c : Nat)
    (h : ∀ s ∈ ss, s.course_id ≠ c) : session_for_course ss c = none := by
  have hnil : ss.filter (fun s => s.course_id == c) = [] := by
    rw [List.filter_eq_nil_iff]
    intro s hs
    simp [h s hs]
  rw [session_for_course, hnil]
  rfl

/-- Filtering a mapped list is mapping the filtered list. -/
theorem filter_of_map {α β : Type} (f : α → β) (p : β → Bool) (l : List α) :
    (l.map f).filter p = (l.filter (fun a => p (f a))).map f := by
  induction l with
  | nil => rfl
  | cons a l ih =>
    simp only [List.map_cons, List.filter_cons]
    by_cases h : p (f a) <;> simp [h, ih]

/-- Keeping only the occurrences of `c` yields `count c` copies of `c`. -/
theorem filter_beq_replicate_count (l : List Nat) (c : Nat) :
    l.filter (fun x => x == c) = List.replicate (l.count c) c := by
  induction l with
  | nil => rfl
  | cons a l ih =>
    by_cases h : a = c
    · subst h
      simp [List.filter_cons, List.count_cons, ih, List.replicate_succ]
    · simp [List.filter_cons, h, List.count_cons, ih]

/-- A sum of seconds splits along any boolean partition of the pairs. -/
theorem sum_snd_split (l : List (Nat × Nat)) (p : Nat × Nat → Bool) :
    (l.map Prod.snd).sum =
      ((l.filter p).map Prod.snd).sum +
        ((l.filter (fun x => !(p x))).map Prod.snd).sum := by
  induction l with
  | nil => rfl
  | cons a l ih =>
    by_cases h : p a <;> simp [List.filter_cons, h, ih] <;> omega

/-- In the priced course list, the entries of a course with no chosen
session are exactly `count` copies of that course priced 0. -/
theorem pricedCourses_filter_paid (ss : List CourseSession)
    (types : List SessionEnrollmentType) (c : Nat)
    (hnone : session_for_course ss c = none) (courses : List Nat) :
    ((courses.map (fun c2 =>
        match session_for_course ss c2 with
        | some s => (c2, verifiedPrice types s.id)
        | none => (c2, 0))).filter (fun pr => pr.1 == c)) =
      List.replicate (courses.count c) (c, 0) := by
  induction courses with
  | nil => rfl
  | cons a l ih =>
    simp only [List.map_cons, List.filter_cons]
    by_cases hac : a = c
    · subst hac
      rw [hnone]
      simp [List.count_cons, ih, List.replicate_succ]
    · cases hsa : session_for_course ss a <;>
        simp [hsa, hac, List.count_cons, ih]

/-- C1: a course of the module for which the authenticated user has a
verified-mode `EnrollmentReason` whose participant is a graduate or whose
session ends strictly after `now` is priced 0 in `get_price_list`, and
contributes 0 to the aggregated module price. -/
theorem C1_paid_course_exclusion (db : DB) (m : EducationalModule)
    (now : Int) (uid c : Nat)
    (h : ∃ r ∈ db.reasons, r.user_id = uid ∧ r.mode = Mode.verified ∧
      r.course_id = c ∧
      (r.is_graduate = true ∨ ∃ t, r.datetime_ends = some t ∧ now < t)) :
    (m.get_price_list db now (some uid)).courses.filter
        (fun pr => pr.1 == c) =
      List.replicate (m.courses.count c) (c, 0) ∧
    (m.get_price_list db now (some uid)).price =
      (((m.get_price_list db now (some uid)).courses.filter
        (fun pr => !(pr.1 == c))).map Prod.snd).sum := by
  have hc : c ∈ coursePaid db.reasons now (some uid) := by
    rw [mem_coursePaid]
    obtain ⟨r, hr, h1, h2, h3, h4⟩ := h
    exact ⟨r, hr, h1, h2, h3, (matchesPaid_iff now r).mpr h4⟩
  have hnone : session_for_course
      (sessionFilter db m (coursePaid db.reasons now (some uid)) now) c =
      none :=
    session_for_course_eq_none _ _
      (sessionFilter_course_not_paid db m _ now c hc)
  have hfilter : (m.get_price_list db now (some uid)).courses.filter
      (fun pr => pr.1 == c) = List.replicate (m.courses.count c) (c, 0) :=
    pricedCourses_filter_paid _ _ _ hnone m.courses
  refine ⟨hfilter, ?_⟩
  have hsum := sum_snd_split ((m.get_price_list db now (some uid)).courses)
    (fun pr => pr.1 == c)
  have hzero : (((m.get_price_list db now (some uid)).courses.filter
      (fun pr => pr.1 == c)).map Prod.snd).sum = 0 := by
    rw [hfilter, List.map_replicate]
    simp
  have hprice : (m.get_price_list db now (some uid)).price =
      ((m.get_price_list db now (some uid)).courses.map Prod.snd).sum := rfl
  rw [hprice, hsum, hzero]
  omega

/-- A one-course database for the C1 witness: user 1 paid for course 7 in
verified mode and graduated. -/
def dbC1 : DB :=
  { reasons := [{ user_id := 1, mode := Mode.verified, course_id := 7,
                  is_graduate := true, datetime_ends := none }],
    course_sessions := [], session_types := [], modules := [] }

/-- The module for the C1 witness: a single course 7. -/
def mC1 : EducationalModule := { id := 1, courses := [7], discount := 0 }

/-- Witness for C1 at the concrete one-course database. -/
theorem C1_paid_course_exclusion_witness :
    (mC1.get_price_list dbC1 0 (some 1)).courses.filter
        (fun pr => pr.1 == 7) =
      List.replicate (mC1.courses.count 7) (7, 0) ∧
    (mC1.get_price_list dbC1 0 (some 1)).price =
      (((mC1.get_price_list dbC1 0 (some 1)).courses.filter
        (fun pr => !(pr.1 == 7))).map Prod.snd).sum :=
  C1_paid_course_exclusion dbC1 mC1 0 1 7
    ⟨{ user_id := 1, mode := Mode.verified, course_id := 7,
       is_graduate := true, datetime_ends := none },
     by decide, rfl, rfl, rfl, Or.inl rfl⟩

/-- C3: for an `edmodule` promo code with a discount percent and no
discount price, on an existing module `calculate` returns status 0 and:
with `use_with_others`, the module price less the additively stacked
discounts; otherwise the larger discount wins — the module's `whole_price`
when the module discount exceeds the promo percent, else the module price
less the promo percent — each quantized to two decimal places. -/
theorem C3_promo_stacking (db : DB) (p : PromoCode) (pid : Nat)
    (m : EducationalModule) (now : Int) (fcp : Option ℚ)
    (svp : Nat → Option ℚ) (sid : Option Nat) (dp : ℚ)
    (hpt : p.product_type = ProductType.edmodule)
    (hdp : p.discount_percent = some dp)
    (hprice : p.discount_price = none)
    (hm : db.modules.find? (fun m2 => m2.id == pid) = some m) :
    p.calculate db fcp svp (some pid) none sid now =
      some { status := 0, new_price := some (
        if p.use_with_others then
          quantize2 (((m.get_price_list db now none).price : ℚ) *
            (1 - (dp + ((m.get_price_list db now none).discount : ℚ)) / 100))
        else if ((m.get_price_list db now none).discount : ℚ) > dp then
          quantize2 ((m.get_price_list db now none).whole_price)
        else
          quantize2 (((m.get_price_list db now none).price : ℚ) *
            (1 - dp / 100))) } := by
  by_cases hw : p.use_with_others
  · simp [PromoCode.calculate, hprice, decimalTruthy, hpt, hm, hdp, hw]
  · by_cases hgt : ((m.get_price_list db now none).discount : ℚ) > dp
    · simp [PromoCode.calculate, hprice, decimalTruthy, hpt, hm, hdp, hw, hgt]
    · simp [PromoCode.calculate, hprice, decimalTruthy, hpt, hm, hdp, hw, hgt]

/-- The empty-module database for the C3 witness. -/
def dbC3 : DB :=
  { reasons := [], course_sessions := [], session_types := [],
    modules := [{ id := 1, courses := [], discount := 0 }] }

/-- The module of `dbC3`. -/
def mC3 : EducationalModule := { id := 1, courses := [], discount := 0 }

/-- The stacking promo code for the C3 witness: 10 percent, no fixed
price. -/
def pC3 : PromoCode :=
  { product_type := ProductType.edmodule, course_id := none,
    edmodule_id := some 1, active_till := 0, max_usage := 1, used := 0,
    use_with_others := true, discount_percent := some 10,
    discount_price := none }

/-- Witness for C3 on the empty module: 10 percent off a zero price is
zero. -/
theorem C3_promo_stacking_witness :
    pC3.calculate dbC3 none (fun _ => none) (some 1) none none 0 =
      some { status := 0, new_price := some (quantize2
        (((mC3.get_price_list dbC3 0 none).price : ℚ) *
          (1 - (10 + ((mC3.get_price_list dbC3 0 none).discount : ℚ)) / 100))) } ∧
    quantize2 (((mC3.get_price_list dbC3 0 none).price : ℚ) *
      (1 - (10 + ((mC3.get_price_list dbC3 0 none).discount : ℚ)) / 100)) = 0 := by
  constructor
  · exact C3_promo_stacking dbC3 pC3 1 mC3 0 none (fun _ => none) none 10
      rfl rfl rfl rfl
  · have hp : (mC3.get_price_list dbC3 0 none).price = 0 := rfl
    have hd : (mC3.get_price_list dbC3 0 none).discount = 0 := rfl
    rw [hp, hd]
    norm_num [quantize2, roundHalfEven]

/-- The usage and expiry checks of `validate`, characterized. -/
theorem validateChecks_facts (p : PromoCode) (today : Int) :
    (p.used ≥ p.max_usage → (validateChecks p today).status = 1) ∧
    (p.used ≥ p.max_usage →
      validateChecks p today =
        { status := 1, message := PromoMessage.alreadyUsed }) ∧
    ((validateChecks p today).status = 0 →
      p.used < p.max_usage ∧ today ≤ p.active_till) := by
  unfold validateChecks
  split_ifs with h1 h2
  · exact ⟨fun _ => rfl, fun _ => rfl, fun h0 => absurd h0 (by decide)⟩
  · exact ⟨fun _ => rfl, fun hu => absurd hu h1, fun h0 => absurd h0 (by decide)⟩
  · exact ⟨fun hu => absurd hu h1, fun hu => absurd hu h1,
      fun _ => ⟨by omega, by omega⟩⟩

/-- C6 (amended): whenever `used >= max_usage`, `validate` returns status 1
— with the already-used message when the promo's product type matches the
request — and it returns status 0 only when `used < max_usage` and the
current date is not after `active_till`. -/
theorem C6_promo_usage_cap (p : PromoCode) (today : Int) (pid : Nat)
    (pt : ProductType) (r : ValidateResult)
    (h : p.validate today pid pt = some r) :
    (p.used ≥ p.max_usage → r.status = 1) ∧
    (p.used ≥ p.max_usage → p.product_type = pt →
      r = { status := 1, message := PromoMessage.alreadyUsed }) ∧
    (r.status = 0 → p.used < p.max_usage ∧ today ≤ p.active_till) := by
  unfold PromoCode.validate at h
  split_ifs at h with hA hB
  · rcases heid : p.edmodule_id with _ | eid
    · rw [heid] at h
      exact absurd h (by simp)
    · rw [heid] at h
      dsimp only at h
      split_ifs at h with hne
      · have hr : r = { status := 1, message := PromoMessage.notBelongs } := by
          injection h with h2
          exact h2.symm
        subst hr
        exact ⟨fun _ => rfl, fun _ hpt => absurd hpt hA.2,
          fun h0 => absurd h0 (by decide)⟩
      · have hr : r = validateChecks p today := by
          injection h with h2
          exact h2.symm
        subst hr
        obtain ⟨c1, c2, c3⟩ := validateChecks_facts p today
        exact ⟨c1, fun hu _ => c2 hu, c3⟩
  · rcases hcid : p.course_id with _ | cid
    · rw [hcid] at h
      exact absurd h (by simp)
    · rw [hcid] at h
      dsimp only at h
      split_ifs at h with hne
      · have hr : r = { status := 1, message := PromoMessage.notBelongs } := by
          injection h with h2
          exact h2.symm
        subst hr
        exact ⟨fun _ => rfl, fun _ hpt => absurd hpt hB.2,
          fun h0 => absurd h0 (by decide)⟩
      · have hr : r = validateChecks p today := by
          injection h with h2
          exact h2.symm
        subst hr
        obtain ⟨c1, c2, c3⟩ := validateChecks_facts p today
        exact ⟨c1, fun hu _ => c2 hu, c3⟩
  · have hr : r = validateChecks p today := by
      injection h with h2
      exact h2.symm
    subst hr
    obtain ⟨c1, c2, c3⟩ := validateChecks_facts p today
    exact ⟨c1, fun hu _ => c2 hu, c3⟩

/-- A used-up promo code owned by specialization 5. -/
def promoC6 : PromoCode :=
  { product_type := ProductType.edmodule, course_id := none,
    edmodule_id := some 5, active_till := 100, max_usage := 1, used := 1,
    use_with_others := true, discount_percent := none,
    discount_price := none }

/-- Counterexample to C6 as stated: with `used >= max_usage`, validating
against a different product returns status 1 with the not-belongs message,
not the already-used message. -/
theorem C6_promo_usage_cap_counterexample :
    promoC6.used ≥ promoC6.max_usage ∧
    promoC6.validate 0 7 ProductType.course =
      some { status := 1, message := PromoMessage.notBelongs } ∧
    PromoMessage.notBelongs ≠ PromoMessage.alreadyUsed := by
  refine ⟨by decide, by decide, by decide⟩

/-- A still-usable promo code owned by specialization 5. -/
def promoC6ok : PromoCode :=
  { product_type := ProductType.edmodule, course_id := none,
    edmodule_id := some 5, active_till := 100, max_usage := 2, used := 1,
    use_with_others := true, discount_percent := none,
    discount_price := none }

/-- Witness for C6 at a concrete valid promo code. -/
theorem C6_promo_usage_cap_witness :
    promoC6ok.used < promoC6ok.max_usage ∧ (0 : Int) ≤ promoC6ok.active_till :=
  (C6_promo_usage_cap promoC6ok 0 5 ProductType.edmodule
    { status := 0, message := PromoMessage.valid } (by decide)).2.2 rfl

/-- C7 (amended): `calculate` prices through exactly one strategy — when
`discount_price` is truthy it is returned directly and `discount_percent`
is ignored; otherwise the result does not depend on `discount_price`. The
model itself does not force at most one of the two fields to be set. -/
theorem C7_exclusive_pricing (p : PromoCode) (db : DB) (fcp : Option ℚ)
    (svp : Nat → Option ℚ) (pid : Option Nat) (ofc : Option Bool)
    (sid : Option Nat) (now : Int) :
    (decimalTruthy p.discount_price = true →
      p.calculate db fcp svp pid ofc sid now =
        some { status := 0, new_price := p.discount_price } ∧
      ∀ dpv : Option ℚ,
        PromoCode.calculate { p with discount_percent := dpv }
            db fcp svp pid ofc sid now =
          p.calculate db fcp svp pid ofc sid now) ∧
    (decimalTruthy p.discount_price = false →
      ∀ q : Option ℚ, decimalTruthy q = false →
        PromoCode.calculate { p with discount_price := q }
            db fcp svp pid ofc sid now =
          p.calculate db fcp svp pid ofc sid now) := by
  constructor
  · intro ht
    have h1 : p.calculate db fcp svp pid ofc sid now =
        some { status := 0, new_price := p.discount_price } := by
      unfold PromoCode.calculate
      rw [if_pos ht]
    refine ⟨h1, fun dpv => ?_⟩
    have h2 : PromoCode.calculate { p with discount_percent := dpv }
        db fcp svp pid ofc sid now =
        some { status := 0, new_price := p.discount_price } := by
      unfold PromoCode.calculate
      rw [if_pos (show decimalTruthy
        ({ p with discount_percent := dpv } : PromoCode).discount_price =
        true from ht)]
    rw [h1, h2]
  · intro hf q hq
    unfold PromoCode.calculate
    rw [if_neg (show ¬ decimalTruthy
        ({ p with discount_price := q } : PromoCode).discount_price =
        true by simp [hq]),
      if_neg (show ¬ decimalTruthy p.discount_price = true by simp [hf])]

/-- A promo code with both pricing fields set. -/
def promoBoth : PromoCode :=
  { product_type := ProductType.edmodule, course_id := none,
    edmodule_id := some 1, active_till := 10, max_usage := 5, used := 0,
    use_with_others := true, discount_percent := some 10,
    discount_price := some 100 }

/-- Counterexample to C7 as stated: the code accepts a promo code with
both `discount_percent` and `discount_price` set — `validate` reports it
valid — so the two fields are not mutually exclusive in the model. -/
theorem C7_exclusive_pricing_counterexample :
    promoBoth.discount_percent.isSome = true ∧
    promoBoth.discount_price.isSome = true ∧
    promoBoth.validate 0 1 ProductType.edmodule =
      some { status := 0, message := PromoMessage.valid } := by
  refine ⟨rfl, rfl, by decide⟩

/-- Witness for C7: with both fields set, `calculate` returns the fixed
price and ignores the percent. -/
theorem C7_exclusive_pricing_witness :
    promoBoth.calculate dbC3 none (fun _ => none) (some 1) none none 0 =
      some { status := 0, new_price := promoBoth.discount_price } :=
  ((C7_exclusive_pricing promoBoth dbC3 none (fun _ => none) (some 1)
    none none 0).1 (by norm_num [decimalTruthy, promoBoth])).1

/-- Under the unique-together invariant, at most one row matches any
(user, module) pair. -/
theorem enrollmentUnique_count (t : List EducationalModuleEnrollment)
    (h : enrollmentUnique t) (u mo : Nat) :
    (t.filter (fun x => x.user == u && x.module == mo)).length ≤ 1 := by
  induction t with
  | nil => simp
  | cons a l ih =>
    rw [enrollmentUnique, List.pairwise_cons] at h
    obtain ⟨ha, hl⟩ := h
    rw [List.filter_cons]
    by_cases hm : (a.user == u && a.module == mo) = true
    · rw [if_pos hm]
      have hnil : l.filter (fun x => x.user == u && x.module == mo) = [] := by
        rw [List.filter_eq_nil_iff]
        intro b hb hmb
        simp only [Bool.and_eq_true, beq_iff_eq] at hm hmb
        exact ha b hb ⟨hm.1.trans hmb.1.symm, hm.2.trans hmb.2.symm⟩
      rw [hnil]
      simp
    · rw [if_neg hm]
      exact ih hl

/-- Mapping a row transformation that keeps user and module preserves the
unique-together invariant. -/
theorem enrollmentUnique_map_preserve (t : List EducationalModuleEnrollment)
    (f : EducationalModuleEnrollment → EducationalModuleEnrollment)
    (hf : ∀ e, (f e).user = e.user ∧ (f e).module = e.module)
    (h : enrollmentUnique t) : enrollmentUnique (t.map f) := by
  rw [enrollmentUnique, List.pairwise_map]
  refine h.imp ?_
  intro a b hab hcontra
  refine hab ⟨?_, ?_⟩
  · exact ((hf a).1.symm.trans hcontra.1).trans (hf b).1
  · exact ((hf a).2.symm.trans hcontra.2).trans (hf b).2

/-- C8: at most one enrollment row per (user, module); the invariant is
preserved by enrollment creation under the unique-together constraint and
by the graduation update. -/
theorem C8_unique_enrollment (t : List EducationalModuleEnrollment)
    (e : EducationalModuleEnrollment) (gradUser : Nat)
    (sessions : List GradSession) (mc : Nat → List Nat) (u mo : Nat)
    (h : enrollmentUnique t) :
    (∀ t2, createEnrollment t e = Except.ok t2 → enrollmentUnique t2) ∧
    enrollmentUnique (update_modules_graduation gradUser sessions t mc) ∧
    (t.filter (fun x => x.user == u && x.module == mo)).length ≤ 1 := by
  refine ⟨?_, ?_, enrollmentUnique_count t h u mo⟩
  · intro t2 ht2
    unfold createEnrollment at ht2
    split_ifs at ht2 with hany
    · injection ht2 with ht2
      subst ht2
      rw [enrollmentUnique, List.pairwise_append]
      refine ⟨h, by simp [enrollmentUnique], ?_⟩
      intro a ha b hb
      simp only [List.mem_singleton] at hb
      subst hb
      intro hcontra
      apply hany
      rw [List.any_eq_true]
      exact ⟨a, ha, by simp [hcontra.1, hcontra.2]⟩
  · simp only [update_modules_graduation]
    apply enrollmentUnique_map_preserve _ _ ?_ h
    intro e2
    constructor <;> (split <;> rfl)

/-- A one-row enrollment table for the C8 witness. -/
def tC8 : List EducationalModuleEnrollment :=
  [{ id := 1, user := 1, module := 1, is_graduated := false,
     is_active := true }]

/-- A second enrollment of user 1 on another module. -/
def eC8 : EducationalModuleEnrollment :=
  { id := 2, user := 1, module := 2, is_graduated := false,
    is_active := true }

/-- Witness for C8 at a concrete table and insertion. -/
theorem C8_unique_enrollment_witness :
    enrollmentUnique (tC8 ++ [eC8]) ∧
    (tC8.filter (fun x => x.user == 1 && x.module == 1)).length ≤ 1 := by
  have h := C8_unique_enrollment tC8 eC8 1 [] (fun _ => []) 1 1 (by decide)
  exact ⟨h.1 (tC8 ++ [eC8]) rfl, h.2.2⟩

/-- Behaviour of `generate_promocode` from any starting depth: a returned
code is six alphabet characters free of collisions; an exception means
every candidate from the starting depth through depth 100 collided. -/
theorem generate_promocode_spec (rnd : Nat → Nat) (ex : List Char → Bool) :
    ∀ k iter, 101 - iter ≤ k →
      ((∀ s, generate_promocode rnd ex iter = Except.ok s →
        s.length = 6 ∧ (∀ ch ∈ s, ch ∈ promoAlphabet) ∧ ex s = false) ∧
      (generate_promocode rnd ex iter = Except.error () →
        ∀ i, iter ≤ i → i ≤ 100 → ex (promocodeOf rnd i) = true)) := by
  intro k
  induction k with
  | zero =>
    intro iter hiter
    rw [generate_promocode]
    rw [dif_pos (by omega)]
    constructor
    · intro s hs
      exact absurd hs (by simp)
    · intro _ i hi1 hi2
      omega
  | succ k ih =>
    intro iter hiter
    rw [generate_promocode]
    by_cases h100 : iter > 100
    · rw [dif_pos h100]
      constructor
      · intro s hs
        exact absurd hs (by simp)
      · intro _ i hi1 hi2
        omega
    · rw [dif_neg h100]
      by_cases hex : ex (promocodeOf rnd iter) = true
      · rw [if_pos hex]
        obtain ⟨ihok, iherr⟩ := ih (iter + 1) (by omega)
        constructor
        · exact ihok
        · intro herr i hi1 hi2
          by_cases hi : i = iter
          · subst hi
            exact hex
          · exact iherr herr i (by omega) hi2
      · rw [if_neg hex]
        constructor
        · intro s hs
          injection hs with hs
          subst hs
          refine ⟨?_, ?_, by simpa using hex⟩
          · simp [promocodeOf, DEFAULT_PROMOCODE_LENGTH]
          · intro ch hch
            simp only [promocodeOf, List.mem_map] at hch
            obtain ⟨j, _, hch⟩ := hch
            subst hch
            exact List.get_mem _ _ _
        · intro herr
          exact absurd herr (by simp)

/-- C9: `generate_promocode` always terminates — it either returns a
six-character code over the uppercase-and-digits alphabet equal to no
existing code, or raises after more than 100 consecutive collisions. -/
theorem C9_generate_promocode_terminates (rnd : Nat → Nat)
    (ex : List Char → Bool) :
    (∀ s, generate_promocode rnd ex 0 = Except.ok s →
      s.length = 6 ∧ (∀ ch ∈ s, ch ∈ promoAlphabet) ∧ ex s = false) ∧
    (generate_promocode rnd ex 0 = Except.error () →
      ∀ i, i ≤ 100 → ex (promocodeOf rnd i) = true) := by
  obtain ⟨hok, herr⟩ := generate_promocode_spec rnd ex 101 0 (by omega)
  exact ⟨hok, fun he i hi => herr he i (by omega) hi⟩

/-- Witness for C9 on a collision-free table. -/
theorem C9_generate_promocode_terminates_witness :
    generate_promocode (fun _ => 0) (fun _ => false) 0 =
      Except.ok (promocodeOf (fun _ => 0) 0) ∧
    (promocodeOf (fun _ => 0) 0).length = 6 := by
  have hrun : generate_promocode (fun _ => 0) (fun _ => false) 0 =
      Except.ok (promocodeOf (fun _ => 0) 0) := by
    rw [generate_promocode]
    rw [dif_neg (by omega), if_neg (by simp)]
  have h := (C9_generate_promocode_terminates (fun _ => 0)
    (fun _ => false)).1 _ hrun
  exact ⟨hrun, h.1⟩

/-- Membership in the `passed_courses` set: a listed session with a truthy
`certificate_data['passed']` for that course. -/
theorem passedCoursesOf_mem (sessions : List GradSession) (c : Nat) :
    (passedCoursesOf sessions).contains c = true ↔
      ∃ s ∈ sessions, s.course_id = c ∧ s.certificate_data = some true := by
  constructor
  · intro h
    have h2 : c ∈ passedCoursesOf sessions := by simpa using h
    simp only [passedCoursesOf, List.mem_map, List.mem_filter] at h2
    obtain ⟨s, ⟨hs, hcert⟩, hc⟩ := h2
    exact ⟨s, hs, hc, by simpa using hcert⟩
  · rintro ⟨s, hs, hc, hcert⟩
    have h2 : c ∈ passedCoursesOf sessions := by
      simp only [passedCoursesOf, List.mem_map, List.mem_filter]
      exact ⟨s, ⟨hs, by simp [hcert]⟩, hc⟩
    simpa using h2

/-- Membership of an enrollment's id in the `to_update` list of
`update_modules_graduation`, under distinct row ids: the row belongs to the
user, is not yet graduated, and all its module's courses are passed. -/
theorem mem_toUpdate (user : Nat)
    (enrollments : List EducationalModuleEnrollment)
    (mc : Nat → List Nat) (passed : List Nat)
    (hids : (enrollments.map (fun e => e.id)).Nodup)
    (e : EducationalModuleEnrollment) (he : e ∈ enrollments) :
    ((((enrollments.filter (fun e2 =>
        e2.user == user && !e2.is_graduated)).map
          (fun e2 => (e2.id, mc e2.module))).filter (fun p =>
            p.2.all (fun c => passed.contains c))).map Prod.fst).contains
        e.id = true ↔
      (e.user = user ∧ e.is_graduated = false ∧
        (mc e.module).all (fun c => passed.contains c) = true) := by
  constructor
  · intro h
    have h2 : e.id ∈ (((enrollments.filter (fun e2 =>
        e2.user == user && !e2.is_graduated)).map
          (fun e2 => (e2.id, mc e2.module))).filter (fun p =>
            p.2.all (fun c => passed.contains c))).map Prod.fst := by
      simpa using h
    obtain ⟨p, hp, hfst⟩ := List.mem_map.mp h2
    obtain ⟨hpmem, hall⟩ := List.mem_filter.mp hp
    obtain ⟨e2, he2, hpe⟩ := List.mem_map.mp hpmem
    obtain ⟨he2mem, hcond⟩ := List.mem_filter.mp he2
    subst hpe
    have heq : e2 = e := List.inj_on_of_nodup_map hids he2mem he hfst
    subst heq
    simp only [Bool.and_eq_true, beq_iff_eq, Bool.not_eq_true'] at hcond
    exact ⟨hcond.1, hcond.2, hall⟩
  · rintro ⟨hu, hg, hall⟩
    have h2 : e.id ∈ (((enrollments.filter (fun e2 =>
        e2.user == user && !e2.is_graduated)).map
          (fun e2 => (e2.id, mc e2.module))).filter (fun p =>
            p.2.all (fun c => passed.contains c))).map Prod.fst := by
      refine List.mem_map.mpr ⟨(e.id, mc e.module), ?_, rfl⟩
      refine List.mem_filter.mpr ⟨?_, hall⟩
      refine List.mem_map.mpr ⟨e, ?_, rfl⟩
      refine List.mem_filter.mpr ⟨he, ?_⟩
      simp [hu, hg]
    simpa using h2

/-- C10: under distinct row ids, `update_modules_graduation` sets
`is_graduated` exactly on the user's non-graduated enrollments whose
module course set is contained in the courses passed by the given
sessions; all other rows are unchanged. -/
theorem C10_module_graduation (user : Nat) (sessions : List GradSession)
    (enrollments : List EducationalModuleEnrollment) (mc : Nat → List Nat)
    (hids : (enrollments.map (fun e => e.id)).Nodup) :
    update_modules_graduation user sessions enrollments mc =
      enrollments.map (fun e =>
        if e.user == user && !e.is_graduated &&
            (mc e.module).all (fun c =>
              (passedCoursesOf sessions).contains c) then
          { e with is_graduated := true }
        else e) ∧
    (∀ c, (passedCoursesOf sessions).contains c = true ↔
      ∃ s ∈ sessions, s.course_id = c ∧ s.certificate_data = some true) := by
  refine ⟨?_, passedCoursesOf_mem sessions⟩
  simp only [update_modules_graduation]
  apply List.map_congr_left
  intro e he
  have hcond : (e.user == user &&
      ((((enrollments.filter (fun e2 =>
        e2.user == user && !e2.is_graduated)).map
          (fun e2 => (e2.id, mc e2.module))).filter (fun p =>
            p.2.all (fun c =>
              (passedCoursesOf sessions).contains c))).map
                Prod.fst).contains e.id) =
      (e.user == user && !e.is_graduated &&
        (mc e.module).all (fun c =>
          (passedCoursesOf sessions).contains c)) := by
    apply Bool.eq_iff_iff.mpr
    simp only [Bool.and_eq_true, beq_iff_eq, Bool.not_eq_true']
    rw [mem_toUpdate user enrollments mc (passedCoursesOf sessions) hids e he]
    constructor
    · rintro ⟨hu, _, hg, hall⟩
      exact ⟨⟨hu, hg⟩, hall⟩
    · rintro ⟨⟨hu, hg⟩, hall⟩
      exact ⟨hu, hu, hg, hall⟩
  rw [hcond]

/-- Witness for C10 at a one-enrollment table whose single course is
passed. -/
theorem C10_module_graduation_witness :
    update_modules_graduation 1
      [{ course_id := 7, certificate_data := some true }]
      [{ id := 1, user := 1, module := 10, is_graduated := false,
         is_active := true }]
      (fun _ => [7]) =
      [{ id := 1, user := 1, module := 10, is_graduated := true,
         is_active := true }] := by
  have h := (C10_module_graduation 1
    [{ course_id := 7, certificate_data := some true }]
    [{ id := 1, user := 1, module := 10, is_graduated := false,
       is_active := true }]
    (fun _ => [7]) (by decide)).1
  rw [h]
  decide

/-- Witness for C5 at a concrete stored record and a concrete failure and
success. -/
theorem C5_progress_sync_failure_handling_witness :
    update_module_enrollment_progress
      (some (some [(1, { payload := 5, updated_at := none })]))
      (Except.error EDXError.timeoutError) 0 =
      some (some [(1, { payload := 5, updated_at := none })]) ∧
    update_module_enrollment_progress none
      (Except.ok [(2, { payload := 9, updated_at := none })]) 0 =
      some (some (dictUpdate
        (((none : Option (Option ProgressData)).getD none).getD [])
        (stampProgress 0 [(2, { payload := 9, updated_at := none })]))) :=
  ⟨(C5_progress_sync_failure_handling
      (some (some [(1, { payload := 5, updated_at := none })]))
      EDXError.timeoutError [] 0).1,
   (C5_progress_sync_failure_handling none EDXError.timeoutError
      [(2, { payload := 9, updated_at := none })] 0).2.1⟩
